import Mathlib

/-!
Verification of the `ssg` static site generator (`src/ssg/src/main.rs`).

The Rust program is shallowly embedded: paths are lists of components,
the file system is a finite tree, machine I/O becomes explicit state
passing (`Fsys × Except Err Unit`), and the two external collaborators
that the specification declares out of scope — the TOML parser and the
Handlebars engine — are passed in as function parameters
(`parse : String → Option Table`, `render : String → Table → Except String String`).
All definitions are computable so that concrete runs evaluate by `rfl`.
-/

set_option autoImplicit false

namespace SSG

/-! ## Strings: `split_once`, `Path::extension`, `Path::file_stem` -/

/-- Embedding of Rust `str::split_once` on character lists: split at the
first occurrence of `pat`, returning the parts before and after it. -/
def splitOnceAux (pat : List Char) : List Char → Option (List Char × List Char)
  | [] => none
  | c :: rest =>
    if pat.isPrefixOf (c :: rest) then some ([], (c :: rest).drop pat.length)
    else
      match splitOnceAux pat rest with
      | some (pre, post) => some (c :: pre, post)
      | none => none

/-- Rust `content.split_once(pat)`. -/
def strSplitOnce (s pat : String) : Option (String × String) :=
  (splitOnceAux pat.data s.data).map fun p => (String.mk p.1, String.mk p.2)

/-- Splits a file name at its final dot: returns `(before, after)`,
`none` when the name has no dot. -/
def splitLastDot : List Char → Option (List Char × List Char)
  | [] => none
  | c :: rest =>
    match splitLastDot rest with
    | some (pre, post) => some (c :: pre, post)
    | none => if c = '.' then some ([], rest) else none

/-- Embedding of Rust `Path::extension` on one file name: the portion after
the final dot; `none` when there is no dot or the only dot is leading
(hidden files such as `.gitignore` have no extension). Note `"foo."`
yields `some ""`, as in Rust. -/
def extOf (name : String) : Option String :=
  match splitLastDot name.data with
  | none => none
  | some ([], _) => none
  | some (_ :: _, post) => some (String.mk post)

/-- Embedding of Rust `Path::file_stem` on one file name: the portion
before the final dot, or the whole name when there is no dot or the only
dot is leading. -/
def stemOf (name : String) : String :=
  match splitLastDot name.data with
  | none => name
  | some ([], _) => name
  | some (c :: pre, _) => String.mk (c :: pre)

/-- A file-system path, as its list of components (all paths the program
manipulates are relative; `Path::join` is list append). -/
abbrev Path := List String

/-- `Path::extension` of a whole path: the extension of its last component. -/
def pathExtension (p : Path) : Option String :=
  match p.getLast? with
  | none => none
  | some name => extOf name

/-- Split a character list on `/`, accumulating the current component in
reverse (structural helper for `parsePath`). -/
def splitSlash : List Char → List Char → List String
  | [], acc => [String.mk acc.reverse]
  | c :: rest, acc =>
    if c = '/' then String.mk acc.reverse :: splitSlash rest []
    else splitSlash rest (c :: acc)

/-- `Path::new` on an asset string from the front matter: its components,
splitting on `/` (empty components are dropped, as Rust's component
iterator does). -/
def parsePath (s : String) : Path :=
  (splitSlash s.data []).filter (fun c => c != "")

/-! ## TOML values and tables (`toml::Value`, `toml::Table`) -/

/-- Embedding of `toml::Value`: the dynamically-typed front-matter value. -/
inductive Value where
  | str (s : String)
  | int (n : Int)
  | bool (b : Bool)
  | arr (vs : List Value)
  | table (kvs : List (String × Value))

/-- Embedding of `toml::Table`: an ordered key/value map. -/
abbrev Table := List (String × Value)

/-- `Value::as_str`. -/
def asStr : Value → Option String
  | .str s => some s
  | _ => none

/-- `Table::get` / indexing: first binding of the key. -/
def lookupTable : Table → String → Option Value
  | [], _ => none
  | (k, v) :: rest, key => if k = key then some v else lookupTable rest key

/-- `Table::entry(k).or_insert(v)`: keep an existing binding, append the
default otherwise. -/
def entryOrInsert (t : Table) (k : String) (v : Value) : Table :=
  if (lookupTable t k).isSome then t else t ++ [(k, v)]

/-- `Table::insert(k, v)`: overwrite the first binding in place, append
when the key is absent. -/
def tableInsert : Table → String → Value → Table
  | [], k, v => [(k, v)]
  | (k', v') :: rest, k, v =>
    if k' = k then (k', v) :: rest else (k', v') :: tableInsert rest k v

/-! ## Errors (`anyhow::Error` values the program can produce) -/

/-- The failure conditions of the program. `fuelOut` is a modeling
artifact of the fuel-bounded recursive copy and corresponds to no program
behavior; `panicked` models the `toml` `Index` panic on a missing key. -/
inductive Err where
  | fuelOut
  | ioRead
  | ioWrite
  | ioMkdir
  | notSource
  | noExtension
  | unsupportedType (t : String)
  | invalidTypeShape
  | templateNotString
  | renderFail (msg : String)
  | invalidAssets
  | notADir
  | panicked
  deriving DecidableEq

/-! ## `read_source` and `parse_body` -/

/-- The front-matter delimiter the program splits on. -/
def delim : String := "*** ssg ***\n"

/-- Embedding of `read_source`: split the content at the delimiter
(absent delimiter is the error `Not a source file`), parse the metadata
with the external TOML parser (`unwrap_or_default`: a failed parse is the
empty table), default `template` to `"article"`, default `type` to the
path's extension, and overwrite `BODY` with the body text. In the Rust
code the extension is computed eagerly as the argument of
`or_insert`, so a path without extension is a hard failure even when the
front matter supplies a `type`; the `template` insertion that textually
precedes it is unobservable on that error path. -/
def readSource (parse : String → Option Table) (source : Path) (content : String) :
    Except Err Table :=
  match strSplitOnce content delim with
  | none => .error .notSource
  | some (meta, body) =>
    match pathExtension source with
    | none => .error .noExtension
    | some ext =>
      .ok (tableInsert
            (entryOrInsert
              (entryOrInsert ((parse meta).getD []) "template" (.str "article"))
              "type" (.str ext))
            "BODY" (.str body))

/-- Embedding of `parse_body`: validate the `type` field. Only the string
`"html"` is accepted; any other string is `Cannot handle files of type ..`,
a non-string is `Expected the 'type' field to be a String`; a missing key
would panic (`toml` indexing), which `readSource` in fact rules out. -/
def parseBody (data : Table) : Except Err Unit :=
  match lookupTable data "type" with
  | some (.str t) => if t = "html" then .ok () else .error (.unsupportedType t)
  | some _ => .error .invalidTypeShape
  | none => .error .panicked

/-! ## The file system

A finite tree of directories and files, generic in the type of entry
names (`String` for the pipeline; `Option String` for the template
registry, where `none` stands for a name that is not valid Unicode). -/

mutual
/-- A file-system node: a file with text content, or a directory. -/
inductive Fsys (ν : Type) where
  | file (content : String)
  | dir (entries : EntryList ν)
/-- The ordered entries of a directory. -/
inductive EntryList (ν : Type) where
  | nil
  | cons (name : ν) (node : Fsys ν) (rest : EntryList ν)
end

variable {ν : Type}

/-- First entry with the given name. -/
def EntryList.find [DecidableEq ν] : EntryList ν → ν → Option (Fsys ν)
  | .nil, _ => none
  | .cons m t rest, n => if m = n then some t else rest.find n

/-- Replace the first entry with the given name, appending when absent. -/
def EntryList.setEntry [DecidableEq ν] : EntryList ν → ν → Fsys ν → EntryList ν
  | .nil, n, t => .cons n t .nil
  | .cons m u rest, n, t =>
    if m = n then .cons m t rest else .cons m u (rest.setEntry n t)

/-- The entry names of a directory, in order (`fs::read_dir`). -/
def EntryList.names : EntryList ν → List ν
  | .nil => []
  | .cons n _ rest => n :: rest.names

/-- Resolve a path from a node (auxiliary, recursing on the path). -/
def lookupP [DecidableEq ν] : List ν → Fsys ν → Option (Fsys ν)
  | [], t => some t
  | _ :: _, .file _ => none
  | n :: p, .dir es =>
    match es.find n with
    | some t => lookupP p t
    | none => none

/-- Resolve a path from the root. -/
def Fsys.lookup [DecidableEq ν] (fs : Fsys ν) (p : List ν) : Option (Fsys ν) :=
  lookupP p fs

/-- Rust `Path::is_dir` against the modeled file system. -/
def Fsys.isDir [DecidableEq ν] (fs : Fsys ν) (p : List ν) : Bool :=
  match fs.lookup p with
  | some (.dir _) => true
  | _ => false

/-- Rust `Path::is_file` against the modeled file system. -/
def Fsys.isFile [DecidableEq ν] (fs : Fsys ν) (p : List ν) : Bool :=
  match fs.lookup p with
  | some (.file _) => true
  | _ => false

/-- Write a file (`fs::write` / the write half of `fs::copy`): every
ancestor must be an existing directory and the target must not be an
existing directory, else the write is an I/O error (`none`). -/
def insertFileP [DecidableEq ν] : List ν → Fsys ν → String → Option (Fsys ν)
  | [], _, _ => none
  | _ :: _, .file _, _ => none
  | [n], .dir es, c =>
    match es.find n with
    | some (.dir _) => none
    | _ => some (.dir (es.setEntry n (.file c)))
  | n :: p₁ :: p₂, .dir es, c =>
    match es.find n with
    | some sub =>
      match insertFileP (p₁ :: p₂) sub c with
      | some sub' => some (.dir (es.setEntry n sub'))
      | none => none
    | none => none

/-- Write a file at a path from the root. -/
def Fsys.insertFile [DecidableEq ν] (fs : Fsys ν) (p : List ν) (c : String) :
    Option (Fsys ν) :=
  insertFileP p fs c

/-- `fs::create_dir_all` (auxiliary): create every missing directory on
the path; an existing file anywhere on it is an I/O error (`none`). -/
def mkdirAllP [DecidableEq ν] : List ν → Fsys ν → Option (Fsys ν)
  | [], .dir es => some (.dir es)
  | [], .file _ => none
  | _ :: _, .file _ => none
  | n :: p, .dir es =>
    match es.find n with
    | some sub =>
      match mkdirAllP p sub with
      | some sub' => some (.dir (es.setEntry n sub'))
      | none => none
    | none =>
      match mkdirAllP p (Fsys.dir .nil) with
      | some sub' => some (.dir (es.setEntry n sub'))
      | none => none

/-- `fs::create_dir_all` at a path from the root. -/
def Fsys.mkdirAll [DecidableEq ν] (fs : Fsys ν) (p : List ν) : Option (Fsys ν) :=
  mkdirAllP p fs

/-! ## `FileHandle::copy`

A `FileHandle` is the triple `(in_dir, out_dir, file)`; `in_file` is
`in_dir ++ file` and `out_file` is `out_dir ++ file`. `copy` copies a
file, recursively descends into a directory, and — exactly as the Rust
`if is_file / else if is_dir / else nothing` chain — silently succeeds
when the input path names nothing. The recursion re-derives each child
handle from `entry.path()`, which is the full `in_file ++ [name]`, so the
child's `in_file` prepends `in_dir` a second time. The recursion is
expressed with an explicit work list plus fuel (the Rust recursion has no
fuel; `fuelOut` never occurs at the fuel bounds the theorems use). -/

/-- Work-list form of `FileHandle::copy`: process each pending `file`
field in order, stopping at the first error. -/
def copyW [DecidableEq ν] (fuel : Nat) (inD outD : List ν) :
    List (List ν) → Fsys ν → Fsys ν × Except Err Unit
  | [], fs => (fs, .ok ())
  | file :: rest, fs =>
    match fuel with
    | 0 => (fs, .error .fuelOut)
    | f + 1 =>
      match fs.lookup (inD ++ file) with
      | some (.file c) =>
        match fs.insertFile (outD ++ file) c with
        | some fs' => copyW f inD outD rest fs'
        | none => (fs, .error .ioWrite)
      | some (.dir es) =>
        match fs.mkdirAll (outD ++ file) with
        | some fs1 =>
          copyW f inD outD ((es.names.map fun n => (inD ++ file) ++ [n]) ++ rest) fs1
        | none => (fs, .error .ioMkdir)
      | none => copyW f inD outD rest fs

/-- `FileHandle { file, in_dir, out_dir }.copy()`. -/
def copy [DecidableEq ν] (fuel : Nat) (inD outD file : List ν) (fs : Fsys ν) :
    Fsys ν × Except Err Unit :=
  copyW fuel inD outD [file] fs

/-! ## `render_file` -/

/-- Copy a single optional asset reference (`stylesheet` / `script`):
`data.get(key).and_then(as_str)` — a missing key or a non-string value is
silently ignored. -/
def copyOpt (fuel : Nat) (inD outD : Path) (o : Option String)
    (fs : Fsys String) : Fsys String × Except Err Unit :=
  match o with
  | some s => copy fuel inD outD (parsePath s) fs
  | none => (fs, .ok ())

/-- Copy each string of an `assets` array in order, stopping at the first
error (non-string array elements were already dropped by `filter_map`). -/
def copyStrList (fuel : Nat) (inD outD : Path) :
    List String → Fsys String → Fsys String × Except Err Unit
  | [], fs => (fs, .ok ())
  | a :: rest, fs =>
    match copy fuel inD outD (parsePath a) fs with
    | (fs', .ok _) => copyStrList fuel inD outD rest fs'
    | r => r

/-- The `assets` match of `render_file`: absent is a no-op, a string is
one copy, an array copies its string elements, anything else is the
`the 'assets' field should be a single file or an array of file` error. -/
def copyAssetsVal (fuel : Nat) (inD outD : Path) (v : Option Value)
    (fs : Fsys String) : Fsys String × Except Err Unit :=
  match v with
  | none => (fs, .ok ())
  | some (.str a) => copy fuel inD outD (parsePath a) fs
  | some (.arr vs) => copyStrList fuel inD outD (vs.filterMap asStr) fs
  | some _ => (fs, .error .invalidAssets)

/-- Embedding of `render_file`: load the source (`read_source`), validate
`type` (`parse_body`), resolve `template`, render through the engine,
write the output file, then copy `stylesheet`, `script` and `assets` —
each asset's `FileHandle` keeps `in_dir`/`out_dir` but replaces the whole
`file` field with the asset path. -/
def renderFile (render : String → Table → Except String String)
    (parse : String → Option Table) (fuel : Nat) (inD outD file : Path)
    (fs : Fsys String) : Fsys String × Except Err Unit :=
  match fs.lookup (inD ++ file) with
  | some (.file content) =>
    match readSource parse (inD ++ file) content with
    | .error e => (fs, .error e)
    | .ok data =>
      match parseBody data with
      | .error e => (fs, .error e)
      | .ok _ =>
        match lookupTable data "template" with
        | none => (fs, .error .panicked)
        | some tv =>
          match asStr tv with
          | none => (fs, .error .templateNotString)
          | some template =>
            match render template data with
            | .error m => (fs, .error (.renderFail m))
            | .ok rendered =>
              match fs.insertFile (outD ++ file) rendered with
              | none => (fs, .error .ioWrite)
              | some fs1 =>
                match copyOpt fuel inD outD
                    ((lookupTable data "stylesheet").bind asStr) fs1 with
                | (fs2, .ok _) =>
                  match copyOpt fuel inD outD
                      ((lookupTable data "script").bind asStr) fs2 with
                  | (fs3, .ok _) =>
                    copyAssetsVal fuel inD outD (lookupTable data "assets") fs3
                  | r => r
                | r => r
  | _ => (fs, .error .ioRead)

/-! ## `render_dir` and `main` -/

mutual
/-- The entries `WalkDir` yields below one node: the node itself first,
then (for directories) each child subtree in order; each entry carries
its path relative to the walk root (after `strip_prefix(in_dir)`) and
whether it is a directory. -/
def walkTree : Fsys String → Path → List (Path × Bool)
  | .file _, rel => [(rel, false)]
  | .dir es, rel => (rel, true) :: walkList es rel
/-- Walk the entries of a directory in order. -/
def walkList : EntryList String → Path → List (Path × Bool)
  | .nil, _ => []
  | .cons n sub rest, rel => walkTree sub (rel ++ [n]) ++ walkList rest rel
end

/-- All entries of the walk of `inD` (empty when `inD` does not resolve;
`render_dir` has already checked it is a directory). The walk is taken on
the file system as it is when the walk starts; the intended use keeps
`out_dir` outside `in_dir`, where this matches the lazy Rust walk. -/
def walkEntries (fs : Fsys String) (inD : Path) : List (Path × Bool) :=
  match fs.lookup inD with
  | some t => walkTree t []
  | none => []

/-- The loop body of `render_dir`: directories are mirrored with
`create_dir_all` (an I/O failure there aborts via `?`), files go through
`render_file` where any error is caught by `if let Err(_) .. continue` —
except a panic, which no Rust `Result` can catch (and the fuel artifact,
which corresponds to no program behavior). -/
def renderDirGo (render : String → Table → Except String String)
    (parse : String → Option Table) (fuel : Nat) (inD outD : Path) :
    List (Path × Bool) → Fsys String → Fsys String × Except Err Unit
  | [], fs => (fs, .ok ())
  | (rel, true) :: rest, fs =>
    match fs.mkdirAll (outD ++ rel) with
    | some fs1 => renderDirGo render parse fuel inD outD rest fs1
    | none => (fs, .error .ioMkdir)
  | (rel, false) :: rest, fs =>
    match renderFile render parse fuel inD outD rel fs with
    | (fs1, .error .panicked) => (fs1, .error .panicked)
    | (fs1, .error .fuelOut) => (fs1, .error .fuelOut)
    | (fs1, _) => renderDirGo render parse fuel inD outD rest fs1

/-- Embedding of `render_dir`: bail unless `in_dir` is a directory, then
walk it. -/
def renderDir (render : String → Table → Except String String)
    (parse : String → Option Table) (fuel : Nat) (inD outD : Path)
    (fs : Fsys String) : Fsys String × Except Err Unit :=
  if fs.isDir inD then renderDirGo render parse fuel inD outD (walkEntries fs inD) fs
  else (fs, .error .notADir)

/-- Embedding of `main` after the template registry is built (the
registry lives behind the abstract `render`): run `render_dir`, then
unconditionally copy `style.css` from the input root to the output root.
The returned `Except` is the process exit status: `.ok` exits 0. -/
def runMain (render : String → Table → Except String String)
    (parse : String → Option Table) (fuel : Nat) (inD outD : Path)
    (fs : Fsys String) : Fsys String × Except Err Unit :=
  match renderDir render parse fuel inD outD fs with
  | (fs1, .ok _) => copy fuel inD outD ["style.css"] fs1
  | r => r

/-! ## The template-registry loop of `main`

File names at the OS boundary are `OsStr`s and need not be valid
Unicode, so here a name is `some s` (a Unicode name) or `none` (a name
whose bytes — and hence whose stem — do not decode; `OsStr::to_str`
yields `None`). Handlebars itself is external: template compilation is
the parameter `pt` and `register_templates_directory` is the parameter
`regDir`. -/

/-- An OS file name: `none` when the bytes are not valid Unicode. -/
abbrev OsName := Option String

/-- The handlebars registry: template name to compiled template (the
compiled form is opaque; its source text stands in for it). -/
abbrev Registry := List (String × String)

/-- Registering a name: the last registration for a name wins. -/
def regInsert : Registry → String → String → Registry
  | [], n, t => [(n, t)]
  | (n', t') :: rest, n, t =>
    if n' = n then (n', t) :: rest else (n', t') :: regInsert rest n t

/-- `template.file_stem().and_then(|name| name.to_str())`: the stem of
the last path component, `none` for an empty path or an undecodable
name. -/
def fileStemStr (p : List OsName) : Option String :=
  match p.getLast? with
  | some (some name) => some (stemOf name)
  | _ => none

/-- One iteration of the template loop of `main`: a file source is
registered under its stem (`continue` when the stem is unavailable, abort
on a compile failure via `?`); a directory source goes through the
engine's directory registration; any other path does nothing. -/
def registerStep (pt : String → Except String String)
    (regDir : Registry → List OsName → Except String Registry)
    (fs : Fsys OsName) (reg : Registry) (template : List OsName) :
    Except String Registry :=
  if fs.isFile template then
    match fileStemStr template with
    | none => .ok reg
    | some name =>
      match fs.lookup template with
      | some (.file content) =>
        match pt content with
        | .ok compiled => .ok (regInsert reg name compiled)
        | .error e => .error e
      | _ => .error "unreadable template file"
  else if fs.isDir template then regDir reg template
  else .ok reg

/-- The whole template loop, stopping at the first failing source. -/
def buildRegistry (pt : String → Except String String)
    (regDir : Registry → List OsName → Except String Registry)
    (fs : Fsys OsName) : List (List OsName) → Registry → Except String Registry
  | [], reg => .ok reg
  | t :: rest, reg =>
    match registerStep pt regDir fs reg t with
    | .ok reg1 => buildRegistry pt regDir fs rest reg1
    | .error e => .error e

/-- `main` up to and including the registry build: when the build fails,
`?` aborts before the rest of `main` (`runDocs`, i.e. `render_dir` and
the `style.css` copy) touches any document. -/
def mainTemplates (pt : String → Except String String)
    (regDir : Registry → List OsName → Except String Registry)
    (fs : Fsys OsName) (templates : List (List OsName))
    (runDocs : Registry → Fsys OsName → Fsys OsName × Except String Unit) :
    Fsys OsName × Except String Unit :=
  match buildRegistry pt regDir fs templates [] with
  | .error e => (fs, .error e)
  | .ok reg => runDocs reg fs

/-! ## Concrete instances used by witnesses and counterexamples

The parser stubs below model the external TOML parser on exactly the
metadata texts the scenarios feed it, mirroring what `toml` returns on
those texts. -/

/-- A parser stub for contents whose parse is never consulted. -/
def noParse : String → Option Table := fun _ => none

/-- The TOML parser on the empty front matter: the empty table. -/
def emptyParse : String → Option Table := fun m => if m = "" then some [] else none

/-- The TOML parser on `template = 5`: an integer-valued `template`. -/
def c5parse : String → Option Table :=
  fun m => if m = "template = 5\n" then some [("template", .int 5)] else none

/-- The TOML parser on the front matter of the C2 scenario document. -/
def c2parse : String → Option Table :=
  fun m =>
    if m = "stylesheet = \"s.css\"\nassets = \"adir\"\n"
    then some [("stylesheet", .str "s.css"), ("assets", .str "adir")] else none

/-- A rendering engine that renders every template to `OUT`. -/
def okRender : String → Table → Except String String := fun _ _ => .ok "OUT"

/-- What `readSource` produces for `page.HTML` with empty front matter. -/
def c4table : Table :=
  [("template", .str "article"), ("type", .str "HTML"), ("BODY", .str "body")]

/-- What `readSource` produces for `p.html` with front matter `template = 5`
and an empty body. -/
def c5table : Table :=
  [("template", .int 5), ("type", .str "html"), ("BODY", .str "")]

/-- What `readSource` produces for `s/doc.md` with empty front matter and
body `x`. -/
def c7table : Table :=
  [("template", .str "article"), ("type", .str "md"), ("BODY", .str "x")]

/-- An input tree whose only document has the unsupported type `md`. -/
def mdFs : Fsys String :=
  .dir (.cons "s" (.dir (.cons "doc.md" (.file "*** ssg ***\nx") .nil)) .nil)

/-- The C2 scenario: the document `srcd/sub/doc.html` references the
stylesheet `s.css` — present both at the input root (content `ROOT`) and
next to the document (content `SUB`) — and the asset directory `adir`
containing `x.txt`. -/
def c2fs : Fsys String :=
  .dir (.cons "srcd"
    (.dir (.cons "sub"
      (.dir (.cons "doc.html"
          (.file "stylesheet = \"s.css\"\nassets = \"adir\"\n*** ssg ***\nB")
        (.cons "s.css" (.file "SUB") .nil)))
      (.cons "s.css" (.file "ROOT")
        (.cons "adir" (.dir (.cons "x.txt" (.file "T") .nil)) .nil))))
    (.cons "outd" (.dir (.cons "sub" (.dir .nil) .nil)) .nil))

/-- The C3 scenario: the output tree already holds a directory named like
the rendered output file `outd/doc.html`, so writing it is an I/O error. -/
def c3fs : Fsys String :=
  .dir (.cons "srcd" (.dir (.cons "doc.html" (.file "*** ssg ***\nhi") .nil))
    (.cons "outd" (.dir (.cons "doc.html" (.dir .nil) .nil)) .nil))

/-- A tree with the source file `i/a.css` and an output directory `o`. -/
def w2fs : Fsys String :=
  .dir (.cons "i" (.dir (.cons "a.css" (.file "C") .nil))
    (.cons "o" (.dir .nil) .nil))

/-- `w2fs` after `a.css` is copied to `o`. -/
def w2fs' : Fsys String :=
  .dir (.cons "i" (.dir (.cons "a.css" (.file "C") .nil))
    (.cons "o" (.dir (.cons "a.css" (.file "C") .nil)) .nil))

/-- An input tree with an empty input root and no output root yet. -/
def c10fs : Fsys String := .dir (.cons "srcd" (.dir .nil) .nil)

/-- `c10fs` after the walk mirrored the (empty) input root. -/
def c10fs' : Fsys String :=
  .dir (.cons "srcd" (.dir .nil) (.cons "outd" (.dir .nil) .nil))

/-- A template directory holding a compilable-looking file with a broken
template and a file whose name does not decode as Unicode. -/
def c9fs : Fsys OsName :=
  .dir (.cons (some "broken.hbs") (.file "BROKEN")
    (.cons none (.file "x") .nil))

/-- A template compiler that rejects exactly the `BROKEN` source. -/
def c9pt : String → Except String String :=
  fun c => if c = "BROKEN" then .error "bad template" else .ok c

/-- A directory registration that registers nothing. -/
def c9regDir : Registry → List OsName → Except String Registry :=
  fun reg _ => .ok reg

/-- The rest of `main`, as far as the registry abort is concerned. -/
def c9runDocs : Registry → Fsys OsName → Fsys OsName × Except String Unit :=
  fun _ fsx => (fsx, .ok ())

/-! ## Model sanity checks -/

example : strSplitOnce "*** ssg ***\nhi" delim = some ("", "hi") := rfl
example : strSplitOnce "a = 1\n*** ssg ***\nbody" delim = some ("a = 1\n", "body") := rfl
example : strSplitOnce "hello" delim = none := rfl
example : extOf "doc.html" = some "html" := rfl
example : extOf "doc" = none := rfl
example : extOf ".gitignore" = none := rfl
example : extOf "doc." = some "" := rfl
example : extOf "a.tar.gz" = some "gz" := rfl
example : stemOf "article.hbs" = "article" := rfl
example : stemOf ".gitignore" = ".gitignore" := rfl
example : readSource (fun _ => some []) ["page.html"] "*** ssg ***\nB"
    = .ok [("template", .str "article"), ("type", .str "html"), ("BODY", .str "B")] := rfl
example : readSource (fun _ => some []) ["page"] "*** ssg ***\nB" = .error .noExtension := rfl
example : readSource (fun _ => none) ["p.html"] "no front matter" = .error .notSource := rfl
example : parseBody [("type", .str "html")] = .ok () := rfl
example : parseBody [("type", .str "md")] = .error (.unsupportedType "md") := rfl
example : parseBody [("type", .int 3)] = .error .invalidTypeShape := rfl

/-! ## Helper lemmas -/

theorem EntryList.find_setEntry_self [DecidableEq ν] :
    ∀ (es : EntryList ν) (n : ν) (t : Fsys ν), (es.setEntry n t).find n = some t
  | .nil, n, t => by simp [EntryList.setEntry, EntryList.find]
  | .cons m u rest, n, t => by
    by_cases h : m = n
    · simp [EntryList.setEntry, EntryList.find, h]
    · simp [EntryList.setEntry, EntryList.find, h, find_setEntry_self rest n t]

theorem insertFileP_lookup [DecidableEq ν] :
    ∀ (p : List ν) (fs fs' : Fsys ν) (c : String),
      insertFileP p fs c = some fs' → lookupP p fs' = some (.file c)
  | [], fs, fs', c, h => by simp [insertFileP] at h
  | [n], .file _, fs', c, h => by simp [insertFileP] at h
  | [n], .dir es, fs', c, h => by
    simp only [insertFileP] at h
    split at h
    · exact absurd h (by simp)
    · injection h with h
      subst h
      simp [lookupP, EntryList.find_setEntry_self]
  | n :: p₁ :: p₂, .file _, fs', c, h => by simp [insertFileP] at h
  | n :: p₁ :: p₂, .dir es, fs', c, h => by
    rcases hf : es.find n with _ | sub
    · simp [insertFileP, hf] at h
    · simp only [insertFileP, hf] at h
      rcases hi : insertFileP (p₁ :: p₂) sub c with _ | sub'
      · simp only [hi] at h
        cases h
      · simp only [hi] at h
        injection h with h
        subst h
        have ih := insertFileP_lookup (p₁ :: p₂) sub sub' c hi
        simp [lookupP, EntryList.find_setEntry_self, ih]

theorem lookupTable_append_other (t : Table) (k k' : String) (v : Value) (h : k ≠ k') :
    lookupTable (t ++ [(k, v)]) k' = lookupTable t k' := by
  induction t with
  | nil => simp [lookupTable, h]
  | cons kv rest ih =>
    obtain ⟨k₀, v₀⟩ := kv
    by_cases h₀ : k₀ = k' <;> simp [lookupTable, h₀, ih]

theorem lookupTable_append_self (t : Table) (k : String) (v : Value)
    (h : lookupTable t k = none) : lookupTable (t ++ [(k, v)]) k = some v := by
  induction t with
  | nil => simp [lookupTable]
  | cons kv rest ih =>
    obtain ⟨k₀, v₀⟩ := kv
    by_cases h₀ : k₀ = k
    · simp [lookupTable, h₀] at h
    · simp only [lookupTable, List.cons_append] at h ⊢
      rw [if_neg h₀] at h ⊢
      exact ih h

theorem lookupTable_entryOrInsert_self (t : Table) (k : String) (v : Value)
    (h : lookupTable t k = none) : lookupTable (entryOrInsert t k v) k = some v := by
  simp [entryOrInsert, h, lookupTable_append_self t k v h]

theorem lookupTable_entryOrInsert_other (t : Table) (k k' : String) (v : Value)
    (h : k ≠ k') : lookupTable (entryOrInsert t k v) k' = lookupTable t k' := by
  unfold entryOrInsert
  split
  · rfl
  · exact lookupTable_append_other t k k' v h

theorem lookupTable_entryOrInsert_isSome (t : Table) (k : String) (v : Value) :
    (lookupTable (entryOrInsert t k v) k).isSome := by
  cases h : lookupTable t k with
  | some w => simp [entryOrInsert, h]
  | none => simp [lookupTable_entryOrInsert_self t k v h]

theorem lookupTable_tableInsert_self (t : Table) (k : String) (v : Value) :
    lookupTable (tableInsert t k v) k = some v := by
  induction t with
  | nil => simp [tableInsert, lookupTable]
  | cons kv rest ih =>
    obtain ⟨k₀, v₀⟩ := kv
    by_cases h₀ : k₀ = k <;> simp [tableInsert, lookupTable, h₀, ih]

theorem lookupTable_tableInsert_other (t : Table) (k k' : String) (v : Value)
    (h : k ≠ k') : lookupTable (tableInsert t k v) k' = lookupTable t k' := by
  induction t with
  | nil => simp [tableInsert, lookupTable, h]
  | cons kv rest ih =>
    obtain ⟨k₀, v₀⟩ := kv
    by_cases h₀ : k₀ = k
    · subst h₀
      simp [tableInsert, lookupTable, h]
    · by_cases h₁ : k₀ = k' <;>
        simp [tableInsert, lookupTable, h₀, h₁, ih, Ne.symm h]

theorem copyW_nil [DecidableEq ν] (fuel : Nat) (inD outD : List ν) (fs : Fsys ν) :
    copyW fuel inD outD [] fs = (fs, .ok ()) := by
  cases fuel <;> rfl

theorem copyW_all_missing [DecidableEq ν] (inD outD : List ν) :
    ∀ (work : List (List ν)) (fuel : Nat) (fs : Fsys ν),
      (∀ q ∈ work, fs.lookup (inD ++ q) = none) → work.length ≤ fuel →
      copyW fuel inD outD work fs = (fs, .ok ())
  | [], fuel, fs, _, _ => copyW_nil fuel inD outD fs
  | q :: rest, 0, fs, _, hlen => by simp at hlen
  | q :: rest, f + 1, fs, hall, hlen => by
    have hq : fs.lookup (inD ++ q) = none := hall q (by simp)
    have ih := copyW_all_missing inD outD rest f fs
      (fun r hr => hall r (by simp [hr])) (by simpa using hlen)
    simp only [copyW, hq]
    exact ih

theorem renderDirGo_skip (render : String → Table → Except String String)
    (parse : String → Option Table) (fuel : Nat) (inD outD rel : Path)
    (rest : List (Path × Bool)) (fs fs1 : Fsys String) (e : Err)
    (h : renderFile render parse fuel inD outD rel fs = (fs1, .error e))
    (hp : e ≠ .panicked) (hf : e ≠ .fuelOut) :
    renderDirGo render parse fuel inD outD ((rel, false) :: rest) fs
      = renderDirGo render parse fuel inD outD rest fs1 := by
  rw [renderDirGo, h]
  cases e
  case panicked => exact absurd rfl hp
  case fuelOut => exact absurd rfl hf
  all_goals rfl

/-! ## The claims -/

/-- Claim C1, amended: loading a raw source document whose text does not
contain the front-matter delimiter does NOT succeed — `read_source` fails
with the `Not a source file` error, so bare documents are rejected rather
than treated as all-body with empty metadata. -/
theorem readSource_missing_delimiter_errors (parse : String → Option Table)
    (source : Path) (content : String)
    (h : strSplitOnce content delim = none) :
    readSource parse source content = .error .notSource := by
  simp only [readSource, h]

/-- Witness for C1 at a concrete bare document. -/
theorem readSource_missing_delimiter_errors_witness :
    strSplitOnce "plain body" delim = none
    ∧ readSource noParse ["notes.txt"] "plain body" = .error .notSource :=
  ⟨rfl, readSource_missing_delimiter_errors noParse ["notes.txt"] "plain body" rfl⟩

/-- Counterexample to C1 as stated: `hello` contains no delimiter, yet
loading it is an error, not a success with the whole content as body. -/
theorem readSource_bare_document_cex :
    strSplitOnce "hello" delim = none
    ∧ readSource noParse ["a.html"] "hello" = .error .notSource := ⟨rfl, rfl⟩

/-- Claim C4, amended: when front matter omits `template` it defaults to
the literal `article`; when it omits `type` it defaults to the file
extension of the source path exactly as written (the code does NOT
lowercase it); a source path without extension is a hard failure
(`No extension present`) whenever the delimiter split succeeded. -/
theorem metadata_defaulting (parse : String → Option Table) (source : Path)
    (content m b e : String) (data : Table) :
    (strSplitOnce content delim = some (m, b) → pathExtension source = none →
      readSource parse source content = .error .noExtension)
    ∧ (strSplitOnce content delim = some (m, b) → pathExtension source = some e →
      readSource parse source content = .ok data →
      (lookupTable ((parse m).getD []) "template" = none →
        lookupTable data "template" = some (.str "article"))
      ∧ (lookupTable ((parse m).getD []) "type" = none →
        lookupTable data "type" = some (.str e))) := by
  constructor
  · intro h1 h2
    simp only [readSource, h1, h2]
  · intro h1 h2 h3
    simp only [readSource, h1, h2] at h3
    injection h3 with h3
    subst h3
    constructor
    · intro h0
      rw [lookupTable_tableInsert_other _ _ _ _ (by decide),
        lookupTable_entryOrInsert_other _ _ _ _ (by decide)]
      exact lookupTable_entryOrInsert_self _ _ _ h0
    · intro h0
      rw [lookupTable_tableInsert_other _ _ _ _ (by decide)]
      apply lookupTable_entryOrInsert_self
      rw [lookupTable_entryOrInsert_other _ _ _ _ (by decide)]
      exact h0

/-- Witness for C4: an extension-less path fails hard, and for `doc.md`
with empty front matter the defaults `article` and `md` appear. -/
theorem metadata_defaulting_witness :
    readSource emptyParse ["noext"] "*** ssg ***\nB" = .error .noExtension
    ∧ lookupTable c7table "template" = some (.str "article")
    ∧ lookupTable c7table "type" = some (.str "md") := by
  refine ⟨?_, ?_, ?_⟩
  · exact (metadata_defaulting emptyParse ["noext"] "*** ssg ***\nB" "" "B" "" []).1
      rfl rfl
  · exact ((metadata_defaulting emptyParse ["s", "doc.md"] "*** ssg ***\nx" ""
      "x" "md" c7table).2 rfl rfl rfl).1 rfl
  · exact ((metadata_defaulting emptyParse ["s", "doc.md"] "*** ssg ***\nx" ""
      "x" "md" c7table).2 rfl rfl rfl).2 rfl

/-- Counterexample to C4 as stated: for the source path `page.HTML` the
defaulted `type` is the extension verbatim, `HTML`, not its lowercase. -/
theorem type_default_not_lowercased_cex :
    readSource emptyParse ["page.HTML"] "*** ssg ***\nbody" = .ok c4table
    ∧ lookupTable c4table "type" = some (.str "HTML")
    ∧ ("HTML" : String) ≠ "html" := ⟨rfl, rfl, by decide⟩

/-- Claim C5, amended: after a successful load the Metadata Table always
CONTAINS `template`, `type` and `BODY` keys, and `BODY` is the split-off
body text verbatim (overwriting any front-matter `BODY`); but the
`template`/`type` values are whatever the front matter supplied — not
necessarily non-empty strings — and `BODY` may be the empty string. -/
theorem loaded_table_keys_present (parse : String → Option Table) (source : Path)
    (content m b : String) (data : Table) :
    strSplitOnce content delim = some (m, b) →
    readSource parse source content = .ok data →
    (lookupTable data "template").isSome
    ∧ (lookupTable data "type").isSome
    ∧ lookupTable data "BODY" = some (.str b) := by
  intro h1 h2
  cases hext : pathExtension source with
  | none =>
    simp only [readSource, h1, hext] at h2
    cases h2
  | some e =>
    simp only [readSource, h1, hext] at h2
    injection h2 with h2
    subst h2
    refine ⟨?_, ?_, ?_⟩
    · rw [lookupTable_tableInsert_other _ _ _ _ (by decide),
        lookupTable_entryOrInsert_other _ _ _ _ (by decide)]
      exact lookupTable_entryOrInsert_isSome _ _ _
    · rw [lookupTable_tableInsert_other _ _ _ _ (by decide)]
      exact lookupTable_entryOrInsert_isSome _ _ _
    · exact lookupTable_tableInsert_self _ _ _

/-- Witness for C5 at a concrete document with body `x`. -/
theorem loaded_table_keys_present_witness :
    (lookupTable c7table "template").isSome
    ∧ (lookupTable c7table "type").isSome
    ∧ lookupTable c7table "BODY" = some (.str "x") :=
  loaded_table_keys_present emptyParse ["s", "doc.md"] "*** ssg ***\nx" "" "x"
    c7table rfl rfl

/-- Counterexample to C5 as stated: front matter `template = 5` with an
empty body loads successfully, yet `template` holds a non-string value
and `BODY` holds the empty string — not "non-empty string values". -/
theorem loaded_table_values_cex :
    readSource c5parse ["p.html"] "template = 5\n*** ssg ***\n" = .ok c5table
    ∧ lookupTable c5table "template" = some (.int 5)
    ∧ lookupTable c5table "BODY" = some (.str "") := ⟨rfl, rfl, rfl⟩

/-- Claim C6: `parse_body` accepts exactly the string `html` under
`type`; any other string yields the recoverable unsupported-type error
carrying that string, and any non-string value yields the
invalid-metadata-shape error. -/
theorem parseBody_type_validation (data : Table) :
    (lookupTable data "type" = some (.str "html") → parseBody data = .ok ())
    ∧ (∀ s, lookupTable data "type" = some (.str s) → s ≠ "html" →
      parseBody data = .error (.unsupportedType s))
    ∧ (∀ v, lookupTable data "type" = some v → asStr v = none →
      parseBody data = .error .invalidTypeShape) := by
  refine ⟨?_, ?_, ?_⟩
  · intro h
    simp [parseBody, h]
  · intro s h hne
    simp [parseBody, h, hne]
  · intro v h hv
    cases v with
    | str s => simp [asStr] at hv
    | int n => simp [parseBody, h]
    | bool bb => simp [parseBody, h]
    | arr vs => simp [parseBody, h]
    | table kvs => simp [parseBody, h]

/-- Witness for C6 at concrete tables of all three shapes. -/
theorem parseBody_type_validation_witness :
    parseBody [("type", .str "html")] = .ok ()
    ∧ parseBody [("type", .str "markdown")] = .error (.unsupportedType "markdown")
    ∧ parseBody [("type", .int 42)] = .error .invalidTypeShape := by
  refine ⟨?_, ?_, ?_⟩
  · exact (parseBody_type_validation [("type", .str "html")]).1 rfl
  · exact (parseBody_type_validation [("type", .str "markdown")]).2.1 "markdown"
      rfl (by decide)
  · exact (parseBody_type_validation [("type", .int 42)]).2.2 (.int 42) rfl rfl

/-- Claim C2, amended: an asset path is resolved against the INPUT ROOT,
not the document's own directory: a path naming the file `inRoot/a` is
copied to `outRoot/a`. When the path names a directory, only the mirrored
directory itself is created; each child is re-resolved with the input
root prefixed a second time (`inRoot ++ (inRoot ++ a) ++ [child]`), so
the child copies are silent no-ops whenever those doubled paths name
nothing — the subtree is not preserved in general. -/
theorem asset_copy_root_relative (f : Nat) (inD outD a : Path) (c : String)
    (fs fs' fs1 : Fsys String) (es : EntryList String) :
    (fs.lookup (inD ++ a) = some (.file c) →
      fs.insertFile (outD ++ a) c = some fs' →
      copy (f + 1) inD outD a fs = (fs', .ok ())
      ∧ fs'.lookup (outD ++ a) = some (.file c))
    ∧ (fs.lookup (inD ++ a) = some (.dir es) →
      fs.mkdirAll (outD ++ a) = some fs1 →
      (∀ n ∈ es.names, fs1.lookup (inD ++ ((inD ++ a) ++ [n])) = none) →
      es.names.length ≤ f →
      copy (f + 1) inD outD a fs = (fs1, .ok ())) := by
  constructor
  · intro h1 h2
    constructor
    · unfold copy
      simp only [copyW, h1, h2]
    · exact insertFileP_lookup (outD ++ a) fs fs' c h2
  · intro h1 h2 h3 h4
    unfold copy
    simp only [copyW, h1, h2]
    apply copyW_all_missing
    · intro q hq
      simp only [List.append_nil, List.mem_map] at hq
      obtain ⟨n, hn, rfl⟩ := hq
      exact h3 n hn
    · simpa using h4

/-- Witness for C2 at a concrete file asset. -/
theorem asset_copy_root_relative_witness :
    copy 5 ["i"] ["o"] ["a.css"] w2fs = (w2fs', .ok ())
    ∧ w2fs'.lookup ["o", "a.css"] = some (.file "C") :=
  (asset_copy_root_relative 4 ["i"] ["o"] ["a.css"] "C" w2fs w2fs' w2fs .nil).1
    rfl rfl

/-- Counterexample to C2 as stated: the document `srcd/sub/doc.html`
references stylesheet `s.css` and asset directory `adir`. Both
`srcd/sub/s.css` (content `SUB`) and `srcd/s.css` (content `ROOT`) exist,
yet the copy takes the root-relative one: the output gets `outd/s.css`
with content `ROOT` and no `outd/sub/s.css`. The directory asset `adir`
is created in the output but its child `x.txt` is NOT copied, although
`srcd/adir/x.txt` exists — the subtree is not preserved. -/
theorem asset_copy_doc_relative_cex :
    (renderFile okRender c2parse 9 ["srcd"] ["outd"] ["sub", "doc.html"] c2fs).2
      = .ok ()
    ∧ c2fs.lookup ["srcd", "sub", "s.css"] = some (.file "SUB")
    ∧ c2fs.lookup ["srcd", "adir", "x.txt"] = some (.file "T")
    ∧ (renderFile okRender c2parse 9 ["srcd"] ["outd"] ["sub", "doc.html"]
        c2fs).1.lookup ["outd", "s.css"] = some (.file "ROOT")
    ∧ (renderFile okRender c2parse 9 ["srcd"] ["outd"] ["sub", "doc.html"]
        c2fs).1.lookup ["outd", "sub", "s.css"] = none
    ∧ (renderFile okRender c2parse 9 ["srcd"] ["outd"] ["sub", "doc.html"]
        c2fs).1.lookup ["outd", "adir"] = some (.dir .nil)
    ∧ (renderFile okRender c2parse 9 ["srcd"] ["outd"] ["sub", "doc.html"]
        c2fs).1.lookup ["outd", "adir", "x.txt"] = none :=
  ⟨rfl, rfl, rfl, rfl, rfl, rfl, rfl⟩

/-- Claim C3, amended: EVERY failure of `render_file` — recoverable
content conditions and per-document I/O failures alike — causes just that
file to be skipped while the walk continues with the remaining entries;
only walk-level conditions abort (`in_dir` not a directory, and an I/O
failure while mirroring a directory); and `main` reports success (exit 0)
regardless of how many documents were skipped. -/
theorem walk_skip_and_continue (render : String → Table → Except String String)
    (parse : String → Option Table) (fuel : Nat) (inD outD rel : Path)
    (rest : List (Path × Bool)) (fs fs1 : Fsys String) (e : Err) :
    (renderFile render parse fuel inD outD rel fs = (fs1, .error e) →
      e ≠ .panicked → e ≠ .fuelOut →
      renderDirGo render parse fuel inD outD ((rel, false) :: rest) fs
        = renderDirGo render parse fuel inD outD rest fs1)
    ∧ (fs.mkdirAll (outD ++ rel) = none →
      renderDirGo render parse fuel inD outD ((rel, true) :: rest) fs
        = (fs, .error .ioMkdir))
    ∧ (fs.isDir inD = false →
      renderDir render parse fuel inD outD fs = (fs, .error .notADir)) := by
  refine ⟨?_, ?_, ?_⟩
  · exact renderDirGo_skip render parse fuel inD outD rel rest fs fs1 e
  · intro h
    simp only [renderDirGo, h]
  · intro h
    simp [renderDir, h]

/-- Witness for C3: the `md`-typed document fails recoverably and the
walk steps past it unchanged. -/
theorem walk_skip_and_continue_witness :
    renderDirGo okRender emptyParse 5 ["s"] ["o"] [(["doc.md"], false)] mdFs
      = renderDirGo okRender emptyParse 5 ["s"] ["o"] [] mdFs :=
  (walk_skip_and_continue okRender emptyParse 5 ["s"] ["o"] ["doc.md"] [] mdFs
    mdFs (.unsupportedType "md")).1 rfl (by decide) (by decide)

/-- Counterexample to C3 as stated: in `c3fs` the write of
`outd/doc.html` is a per-document I/O failure (`ioWrite`, the output path
is an existing directory), yet the run does not abort — the file is
skipped, the walk finishes, and `main` exits with SUCCESS even though a
document was skipped (the claim requires abort-on-I/O and a non-zero
exit). -/
theorem walk_io_skip_exit_ok_cex :
    renderFile okRender emptyParse 9 ["srcd"] ["outd"] ["doc.html"] c3fs
      = (c3fs, .error .ioWrite)
    ∧ runMain okRender emptyParse 9 ["srcd"] ["outd"] c3fs = (c3fs, .ok ())
    ∧ c3fs.lookup ["outd", "doc.html"] = some (.dir .nil) := ⟨rfl, rfl, rfl⟩

/-- Claim C7: the output file is written only after the document fully
renders: a rejected `type` and a failing template render both leave the
file system untouched for that document (`renderFile` returns the input
state with the error), and a failing file does not stop the walk for its
siblings. -/
theorem no_output_on_failed_render (render : String → Table → Except String String)
    (parse : String → Option Table) (fuel : Nat) (inD outD rel : Path)
    (rest : List (Path × Bool)) (fs fs1 : Fsys String)
    (content : String) (data : Table) (e : Err) (t m : String) :
    (fs.lookup (inD ++ rel) = some (.file content) →
      readSource parse (inD ++ rel) content = .ok data →
      parseBody data = .error e →
      renderFile render parse fuel inD outD rel fs = (fs, .error e))
    ∧ (fs.lookup (inD ++ rel) = some (.file content) →
      readSource parse (inD ++ rel) content = .ok data →
      parseBody data = .ok () →
      lookupTable data "template" = some (.str t) →
      render t data = .error m →
      renderFile render parse fuel inD outD rel fs = (fs, .error (.renderFail m)))
    ∧ (renderFile render parse fuel inD outD rel fs = (fs1, .error e) →
      e ≠ .panicked → e ≠ .fuelOut →
      renderDirGo render parse fuel inD outD ((rel, false) :: rest) fs
        = renderDirGo render parse fuel inD outD rest fs1) := by
  refine ⟨?_, ?_, ?_⟩
  · intro h1 h2 h3
    simp only [renderFile, h1, h2, h3]
  · intro h1 h2 h3 h4 h5
    simp only [renderFile, h1, h2, h3, h4, asStr, h5]
  · exact renderDirGo_skip render parse fuel inD outD rel rest fs fs1 e

/-- Witness for C7: the `md`-typed document produces no output — the
file system comes back unchanged with the unsupported-type error. -/
theorem no_output_on_failed_render_witness :
    renderFile okRender emptyParse 5 ["s"] ["o"] ["doc.md"] mdFs
      = (mdFs, .error (.unsupportedType "md")) :=
  (no_output_on_failed_render okRender emptyParse 5 ["s"] ["o"] ["doc.md"] []
    mdFs mdFs "*** ssg ***\nx" c7table (.unsupportedType "md") "" "").1
    rfl rfl rfl

/-- Claim C8, amended: copying an asset path that names no existing file
or directory does NOT surface an I/O failure — `FileHandle::copy` falls
through its `is_file`/`is_dir` chain and silently succeeds as a no-op,
leaving the file system unchanged. -/
theorem copy_missing_path_noop (f : Nat) (inD outD p : Path) (fs : Fsys String)
    (h : fs.lookup (inD ++ p) = none) :
    copy (f + 1) inD outD p fs = (fs, .ok ()) := by
  unfold copy
  simp only [copyW, h]

/-- Witness for C8 at a concrete missing path. -/
theorem copy_missing_path_noop_witness :
    copy 4 ["in"] ["out"] ["missing.css"] c10fs = (c10fs, .ok ()) :=
  copy_missing_path_noop 3 ["in"] ["out"] ["missing.css"] c10fs rfl

/-- Counterexample to C8 as stated: copying `x.css` out of an empty tree
returns success and copies nothing — no I/O failure is surfaced. -/
theorem copy_missing_path_cex :
    copy 1 ["i"] ["o"] ["x.css"] (.dir .nil : Fsys String)
      = ((.dir .nil : Fsys String), .ok ()) := rfl

/-- Claim C9: during registry construction a file source whose stem is
unavailable is skipped silently (the registry is unchanged and the loop
continues), a file source whose content fails to compile as a template is
an error, and a failing registry build aborts `main` before any document
processing runs (the rest of `main` is never invoked, for every
continuation). -/
theorem template_registry_startup (pt : String → Except String String)
    (regDir : Registry → List OsName → Except String Registry)
    (fs : Fsys OsName) (reg : Registry) (t : List OsName) (c e name : String)
    (templates : List (List OsName))
    (runDocs : Registry → Fsys OsName → Fsys OsName × Except String Unit) :
    (fs.isFile t = true → fileStemStr t = none →
      registerStep pt regDir fs reg t = .ok reg)
    ∧ (fs.lookup t = some (.file c) → fileStemStr t = some name →
      pt c = .error e → registerStep pt regDir fs reg t = .error e)
    ∧ (buildRegistry pt regDir fs templates [] = .error e →
      mainTemplates pt regDir fs templates runDocs = (fs, .error e)) := by
  refine ⟨?_, ?_, ?_⟩
  · intro h1 h2
    simp [registerStep, h1, h2]
  · intro h1 h2 h3
    have hf : fs.isFile t = true := by simp [Fsys.isFile, h1]
    simp [registerStep, hf, h2, h1, h3]
  · intro h
    simp [mainTemplates, h]

/-- Witness for C9: the undecodable file name is skipped with the
registry unchanged; the broken template aborts the build, and `main`
stops before the document phase with the file system untouched. -/
theorem template_registry_startup_witness :
    registerStep c9pt c9regDir c9fs [] [(none : OsName)] = .ok []
    ∧ registerStep c9pt c9regDir c9fs [] [some "broken.hbs"]
      = .error "bad template"
    ∧ mainTemplates c9pt c9regDir c9fs [[some "broken.hbs"]] c9runDocs
      = (c9fs, .error "bad template") := by
  refine ⟨?_, ?_, ?_⟩
  · exact (template_registry_startup c9pt c9regDir c9fs [] [none] "" "" ""
      [] c9runDocs).1 rfl rfl
  · exact (template_registry_startup c9pt c9regDir c9fs [] [some "broken.hbs"]
      "BROKEN" "bad template" "broken" [] c9runDocs).2.1 rfl rfl rfl
  · exact (template_registry_startup c9pt c9regDir c9fs [] [some "broken.hbs"]
      "BROKEN" "bad template" "broken" [[some "broken.hbs"]] c9runDocs).2.2 rfl

/-- Claim C10: after the walk succeeds, every run performs one extra copy
of `style.css` from the input root to the output root, unconditionally
and independently of any document's metadata (it is hard-wired in
`main`); when no such input exists the copy silently succeeds as a no-op
and the run still exits 0. -/
theorem style_css_default_copy (render : String → Table → Except String String)
    (parse : String → Option Table) (f : Nat) (inD outD : Path)
    (fs fs1 : Fsys String) :
    (renderDir render parse (f + 1) inD outD fs = (fs1, .ok ()) →
      runMain render parse (f + 1) inD outD fs
        = copy (f + 1) inD outD ["style.css"] fs1)
    ∧ (renderDir render parse (f + 1) inD outD fs = (fs1, .ok ()) →
      fs1.lookup (inD ++ ["style.css"]) = none →
      runMain render parse (f + 1) inD outD fs = (fs1, .ok ())) := by
  constructor
  · intro h
    simp only [runMain, h]
  · intro h hnone
    simp only [runMain, h]
    unfold copy
    simp only [copyW, hnone]

/-- Witness for C10: a run over an empty input root with no `style.css`
finishes with the copy as a no-op and exit 0. -/
theorem style_css_default_copy_witness :
    runMain okRender emptyParse 3 ["srcd"] ["outd"] c10fs = (c10fs', .ok ()) :=
  (style_css_default_copy okRender emptyParse 2 ["srcd"] ["outd"] c10fs
    c10fs').2 rfl rfl

end SSG
